import Mathlib

/-!
Verification model of the `parallel` Go package (the Conductor engine in
`part_000` of the repository: `NewConductor`, `Conductor.Run`,
`Conductor.ThenStop`, `Conductor.Errors`, `Conductor.monitor`).

The Go code is concurrent, so it is embedded as a small-step interleaving
transition system.  Each goroutine of the program (the N per-process runner
goroutines spawned by `Run`, the single `monitor` goroutine, the N stopper
goroutines spawned inside `ThenStop`, and the main goroutine executing
`ThenStop` itself) becomes a small state machine; channels become explicit
buffers / rendezvous conditions; the environment (the behaviour of the
caller-supplied processes, parent-context cancellation, OS signal delivery)
is nondeterministic.  Ghost fields (`published`, `consumed`,
`shutdownCount`, `panicked`, `errorsClosed`) record history that the Go
state carries implicitly, so that the specification's properties can be
stated.
-/

namespace Parallel

/-- Model of a Go `context.Context` as used by `part_000`: a context is
either rooted at `context.Background()` or at the caller-supplied parent
context, and optionally carries a deadline (in abstract time units measured
from its creation; `5` stands for the 5 seconds of
`context.WithTimeout(context.Background(), 5*time.Second)`). -/
structure Ctx where
  fromBackground : Bool
  timeout : Option Nat
deriving DecidableEq, Repr

/-- `context.Background()`: never cancelled, no deadline. -/
def contextBackground : Ctx := { fromBackground := true, timeout := none }

/-- `context.WithTimeout(parent, d)`: the derived context keeps its root and
gains the deadline `d`.  (In the program the parent is always
`context.Background()`, which has no deadline of its own.) -/
def withTimeout (c : Ctx) (d : Nat) : Ctx := { c with timeout := some d }

/-- Whether a context is done at time `t` (measured from its creation),
given whether the caller-supplied parent context has been cancelled: a
context rooted at the parent is done once the parent is cancelled, and any
context is done once its own deadline has elapsed. -/
def ctxDoneAt (parentCancelled : Bool) (t : Nat) (c : Ctx) : Bool :=
  (!c.fromBackground && parentCancelled) ||
    (match c.timeout with
     | none => false
     | some d => decide (d ≤ t))

/-- The 5-second grace period of `ThenStop`
(`context.WithTimeout(context.Background(), 5*time.Second)`). -/
def shutdownTimeout : Nat := 5

/-- The context `ThenStop` creates for the stop fan-out (`part_000`
line 74): derived from `context.Background()` with the fixed 5-second
timeout. -/
def thenStopCtx : Ctx := withTimeout contextBackground shutdownTimeout

/-- The Go struct `processError`: a failure record pairing a process (by
index into the Conductor's process slice) with the non-nil error its `Run`
returned (errors are abstracted as numeric codes). -/
structure ProcessError where
  process : Nat
  err : Nat
deriving DecidableEq, Repr

/-- Behaviour of a caller-supplied process's `Run(ctx)`: it may never
return (`hangs`) or return an outcome (`ret none` = nil error,
`ret (some e)` = the non-nil error `e`). -/
inductive RunBeh where
  | hangs : RunBeh
  | ret : Option Nat → RunBeh
deriving DecidableEq, Repr

/-- Behaviour of a caller-supplied process's `Stop(ctx)`: it may never
return (`hangs`) or return an outcome (`ret none` = nil error,
`ret (some e)` = the non-nil error `e`). -/
inductive StopBeh where
  | hangs : StopBeh
  | ret : Option Nat → StopBeh
deriving DecidableEq, Repr

/-- The environment of one execution: the number of processes handed to
`NewConductor` and the (fixed, per-process) behaviour of each process's
`Run` and `Stop`. -/
structure Config where
  K : Nat
  runBeh : Nat → RunBeh
  stopBeh : Nat → StopBeh

/-- Capacity of the failure buffer:
`errors: make(chan processError, len(processes))` in `NewConductor`. -/
def errorsCapacity (cfg : Config) : Nat := cfg.K

/-- Diagnostic events, mirroring the log calls of `part_000`:
`starting` ("starting process", in each runner goroutine),
`processErrorLog` ("process error", in `monitor`),
`ctxCancelledWarn` ("context cancelled", in `monitor`),
`receivedStopLog` ("received stop signal, stopping all processes", in
`ThenStop`), `stoppedLog` ("stopped process") and `failedToStopLog`
("failed to stop process") in the stopper goroutines.  The constructor
`completed` is the "completed" event the specification says is emitted
when a `Run` returns nil; `part_000` contains no such log call, so no
transition of the model emits it. -/
inductive Event where
  | starting : Nat → Event
  | completed : Nat → Event
  | processErrorLog : Nat → Nat → Event
  | ctxCancelledWarn : Event
  | receivedStopLog : Event
  | stoppedLog : Nat → Event
  | failedToStopLog : Nat → Nat → Event
deriving DecidableEq, Repr

/-- The event a stopper goroutine logs when `process.Stop(ctx)` returns:
"failed to stop process" on a non-nil error, "stopped process" otherwise
(`part_000` lines 83-92). -/
def stopEvent (i : Nat) (o : Option Nat) : Event :=
  match o with
  | none => Event.stoppedLog i
  | some e => Event.failedToStopLog i e

/-- Control state of one runner goroutine (the closure spawned for each
process by `Conductor.Run`): not yet scheduled; inside `process.Run(ctx)`;
`Run` returned the non-nil error `e` and the goroutine is at
`c.errors <- processError{...}`; returned nil and finished; or finished
after the failure-record send completed. -/
inductive RunnerSt where
  | idle : RunnerSt
  | running : RunnerSt
  | sendPending : Nat → RunnerSt
  | doneOk : RunnerSt
  | doneSent : RunnerSt
deriving DecidableEq, Repr

/-- Control state of the `monitor` goroutine: blocked in its `select`;
took one of the two branches (and logged) and is now blocked at
`c.stop <- syscall.SIGTERM` (an unbuffered send); or completed that send
and returned. -/
inductive MonitorSt where
  | selecting : MonitorSt
  | armPending : MonitorSt
  | exited : MonitorSt
deriving DecidableEq, Repr

/-- Control state of the main goroutine executing `ThenStop`: blocked at
`<-c.stop`; received a trigger; logged, created the timeout context and
spawned the stopper goroutines, now blocked at `wg.Wait()`; or past
`wg.Wait()` and `signal.Stop`, returned. -/
inductive MainSt where
  | waitingTrigger : MainSt
  | triggered : MainSt
  | stopping : MainSt
  | done : MainSt
deriving DecidableEq, Repr

/-- Control state of one stopper goroutine spawned inside `ThenStop`:
either it has not yet completed `process.Stop(ctx)` (or was not spawned
yet), or `Stop` returned the outcome `o` and the goroutine logged and
called `wg.Done()`. -/
inductive StopperSt where
  | notStarted : StopperSt
  | finished : Option Nat → StopperSt
deriving DecidableEq, Repr

/-- Global state of the interleaving model.  `queue` is the contents of the
buffered channel `c.errors`; `consumed` (ghost) the records the monitor has
received from it; `published` (ghost) every record ever sent into it;
`ctxCancelled` whether the caller's parent context is done;
`signalRegistered` whether `signal.Notify` registration is active
(cleared by `signal.Stop`); `errorsClosed` whether `close(c.errors)` was
ever executed (it never is in `part_000`); `panicked` whether any goroutine
raised a run-time panic (no statement of `part_000` does);
`shutdownCount` (ghost) how many times the body of the shutdown phase
(the statements of `ThenStop` after `<-c.stop`) has been entered;
`stopCtx` the context created for the stop fan-out, once created. -/
structure State where
  runners : Nat → RunnerSt
  monitor : MonitorSt
  mainst : MainSt
  stoppers : Nat → StopperSt
  queue : List ProcessError
  consumed : List ProcessError
  published : List ProcessError
  ctxCancelled : Bool
  signalRegistered : Bool
  errorsClosed : Bool
  panicked : Bool
  shutdownCount : Nat
  stopCtx : Option Ctx
  log : List Event

/-- The state right after `NewConductor(processes...).Run(ctx)` returned
and the main goroutine entered `ThenStop`: all runner goroutines spawned
but not yet scheduled, the monitor in its `select`, the main goroutine at
`<-c.stop`, signal registration active (done in `NewConductor`), all
buffers empty. -/
def initState (_cfg : Config) : State :=
  { runners := fun _ => RunnerSt.idle
  , monitor := MonitorSt.selecting
  , mainst := MainSt.waitingTrigger
  , stoppers := fun _ => StopperSt.notStarted
  , queue := []
  , consumed := []
  , published := []
  , ctxCancelled := false
  , signalRegistered := true
  , errorsClosed := false
  , panicked := false
  , shutdownCount := 0
  , stopCtx := none
  , log := [] }

/-- One interleaving step of the system.  Each constructor is one atomic
action of one goroutine of `part_000` (or of the environment), with its
enabling condition as hypotheses. -/
inductive Step (cfg : Config) : State → State → Prop
  /-- A runner goroutine gets scheduled: logs "starting process" and calls
  `process.Run(ctx)` (`part_000` lines 51-56). -/
  | runnerBegin (s : State) (i : Nat)
      (hK : i < cfg.K) (h : s.runners i = RunnerSt.idle) :
      Step cfg s { s with
        runners := Function.update s.runners i RunnerSt.running
      , log := s.log ++ [Event.starting i] }
  /-- `process.Run(ctx)` returns nil: the goroutine body just ends - no
  log, no send (`part_000` lines 56-64). -/
  | runnerFinishOk (s : State) (i : Nat)
      (hK : i < cfg.K) (h : s.runners i = RunnerSt.running)
      (hb : cfg.runBeh i = RunBeh.ret none) :
      Step cfg s { s with
        runners := Function.update s.runners i RunnerSt.doneOk }
  /-- `process.Run(ctx)` returns the non-nil error `e`: the goroutine is
  now at the send `c.errors <- processError{process, err}`
  (`part_000` lines 56-57). -/
  | runnerFail (s : State) (i : Nat) (e : Nat)
      (hK : i < cfg.K) (h : s.runners i = RunnerSt.running)
      (hb : cfg.runBeh i = RunBeh.ret (some e)) :
      Step cfg s { s with
        runners := Function.update s.runners i (RunnerSt.sendPending e) }
  /-- The buffered send `c.errors <- processError{...}` completes (enabled
  because the buffer is not full) and the goroutine returns
  (`part_000` lines 57-62). -/
  | runnerSend (s : State) (i : Nat) (e : Nat)
      (hK : i < cfg.K) (h : s.runners i = RunnerSt.sendPending e)
      (hq : s.queue.length < errorsCapacity cfg) :
      Step cfg s { s with
        runners := Function.update s.runners i RunnerSt.doneSent
      , queue := s.queue ++ [ProcessError.mk i e]
      , published := s.published ++ [ProcessError.mk i e] }
  /-- Environment: the caller-supplied parent context becomes done. -/
  | cancelParent (s : State) (h : s.ctxCancelled = false) :
      Step cfg s { s with ctxCancelled := true }
  /-- The monitor's `select` takes the `err := <-c.errors` branch: it
  receives the oldest failure record, logs "process error", and moves to
  the send `c.stop <- syscall.SIGTERM` (`part_000` lines 105-114). -/
  | monitorRecv (s : State) (rec : ProcessError) (rest : List ProcessError)
      (hm : s.monitor = MonitorSt.selecting) (hq : s.queue = rec :: rest) :
      Step cfg s { s with
        monitor := MonitorSt.armPending
      , queue := rest
      , consumed := s.consumed ++ [rec]
      , log := s.log ++ [Event.processErrorLog rec.process rec.err] }
  /-- The monitor's `select` takes the `<-ctx.Done()` branch: logs
  "context cancelled" and moves to the send `c.stop <- syscall.SIGTERM`
  (`part_000` lines 116-120). -/
  | monitorCtxDone (s : State)
      (hm : s.monitor = MonitorSt.selecting) (hc : s.ctxCancelled = true) :
      Step cfg s { s with
        monitor := MonitorSt.armPending
      , log := s.log ++ [Event.ctxCancelledWarn] }
  /-- Rendezvous on the unbuffered channel `c.stop`: the monitor's pending
  send pairs with the main goroutine's `<-c.stop`.  (If the main goroutine
  is no longer receiving, the monitor stays blocked forever - there is no
  other receiver - which is exactly how a second trigger is absorbed.) -/
  | monitorArm (s : State)
      (hm : s.monitor = MonitorSt.armPending)
      (hw : s.mainst = MainSt.waitingTrigger) :
      Step cfg s { s with
        monitor := MonitorSt.exited
      , mainst := MainSt.triggered }
  /-- Environment: an OS interrupt/terminate signal is delivered.  The
  `signal` package performs a non-blocking send on the registered channel;
  on the unbuffered `c.stop` it succeeds only when the main goroutine is
  currently blocked at `<-c.stop`, and the signal is dropped otherwise
  (so only the succeeding delivery is a transition). -/
  | signalArrive (s : State)
      (hr : s.signalRegistered = true)
      (hw : s.mainst = MainSt.waitingTrigger) :
      Step cfg s { s with mainst := MainSt.triggered }
  /-- The main goroutine, having received from `c.stop`, executes the body
  of the shutdown phase: logs "received stop signal", derives the 5-second
  timeout context from `context.Background()`, and spawns the stopper
  goroutines, then blocks at `wg.Wait()` (`part_000` lines 71-82). -/
  | mainStartShutdown (s : State) (h : s.mainst = MainSt.triggered) :
      Step cfg s { s with
        mainst := MainSt.stopping
      , shutdownCount := s.shutdownCount + 1
      , stopCtx := some thenStopCtx
      , log := s.log ++ [Event.receivedStopLog] }
  /-- A stopper goroutine's `process.Stop(ctx)` returns with outcome `o`:
  it logs "failed to stop process" on a non-nil error and "stopped
  process" otherwise, then `wg.Done()` (`part_000` lines 80-93). -/
  | stopperFinish (s : State) (i : Nat) (o : Option Nat)
      (hK : i < cfg.K) (hm : s.mainst = MainSt.stopping)
      (h : s.stoppers i = StopperSt.notStarted)
      (hb : cfg.stopBeh i = StopBeh.ret o) :
      Step cfg s { s with
        stoppers := Function.update s.stoppers i (StopperSt.finished o)
      , log := s.log ++ [stopEvent i o] }
  /-- `wg.Wait()` returns (every stopper has called `wg.Done()`), and the
  main goroutine executes `signal.Stop(c.stop)` and returns
  (`part_000` lines 96-97). -/
  | mainJoin (s : State) (hm : s.mainst = MainSt.stopping)
      (hall : ∀ i, i < cfg.K → s.stoppers i ≠ StopperSt.notStarted) :
      Step cfg s { s with
        mainst := MainSt.done
      , signalRegistered := false }

/-- Reflexive-transitive closure of `Step`: `t` is reachable from `s`. -/
inductive Reach (cfg : Config) : State → State → Prop
  | refl (s : State) : Reach cfg s s
  | tail {s t u : State} : Reach cfg s t → Step cfg t u → Reach cfg s u

/-- A state of the whole system reachable from the initial state. -/
def Reachable (cfg : Config) (s : State) : Prop :=
  Reach cfg (initState cfg) s

/-- The failure stream accessor `Conductor.Errors`: the receive end of the
`c.errors` channel, i.e. the records currently buffered in it
(`part_000` lines 100-102). -/
def ErrorsChan (s : State) : List ProcessError := s.queue

/-! Concrete configurations and executions, used as counterexamples and
witnesses below. -/

/-- One process whose `Run` fails with error 7 and whose `Stop`
succeeds. -/
abbrev cfgFail : Config :=
  { K := 1
  , runBeh := fun _ => RunBeh.ret (some 7)
  , stopBeh := fun _ => StopBeh.ret none }

/-- Execution of `cfgFail`: the runner starts, fails, publishes its
failure record; the monitor receives the record and arms the trigger;
`ThenStop` receives it and runs the stop fan-out to completion. -/
abbrev sF0 : State := initState cfgFail

abbrev sF1 : State :=
  { sF0 with
    runners := Function.update sF0.runners 0 RunnerSt.running,
    log := sF0.log ++ [Event.starting 0] }

abbrev sF2 : State :=
  { sF1 with
    runners := Function.update sF1.runners 0 (RunnerSt.sendPending 7) }

abbrev sF3 : State :=
  { sF2 with
    runners := Function.update sF2.runners 0 RunnerSt.doneSent,
    queue := sF2.queue ++ [ProcessError.mk 0 7],
    published := sF2.published ++ [ProcessError.mk 0 7] }

abbrev sF4 : State :=
  { sF3 with
    monitor := MonitorSt.armPending,
    queue := ([] : List ProcessError),
    consumed := sF3.consumed ++ [ProcessError.mk 0 7],
    log := sF3.log ++ [Event.processErrorLog 0 7] }

abbrev sF5 : State :=
  { sF4 with
    monitor := MonitorSt.exited, mainst := MainSt.triggered }

abbrev sF6 : State :=
  { sF5 with
    mainst := MainSt.stopping,
    shutdownCount := sF5.shutdownCount + 1,
    stopCtx := some thenStopCtx,
    log := sF5.log ++ [Event.receivedStopLog] }

abbrev sF7 : State :=
  { sF6 with
    stoppers := Function.update sF6.stoppers 0 (StopperSt.finished none),
    log := sF6.log ++ [stopEvent 0 none] }

abbrev sF8 : State :=
  { sF7 with
    mainst := MainSt.done, signalRegistered := false }

/-- One process whose `Run` returns nil and whose `Stop` succeeds. -/
abbrev cfgClean : Config :=
  { K := 1,
    runBeh := fun _ => RunBeh.ret none,
    stopBeh := fun _ => StopBeh.ret none }

/-- Execution of `cfgClean`: the runner starts and completes cleanly; an
external signal then triggers shutdown, which runs to completion. -/
abbrev sC0 : State := initState cfgClean

abbrev sC1 : State :=
  { sC0 with
    runners := Function.update sC0.runners 0 RunnerSt.running,
    log := sC0.log ++ [Event.starting 0] }

abbrev sC2 : State :=
  { sC1 with
    runners := Function.update sC1.runners 0 RunnerSt.doneOk }

abbrev sC3 : State := { sC2 with
    mainst := MainSt.triggered }

abbrev sC4 : State :=
  { sC3 with
    mainst := MainSt.stopping,
    shutdownCount := sC3.shutdownCount + 1,
    stopCtx := some thenStopCtx,
    log := sC3.log ++ [Event.receivedStopLog] }

abbrev sC5 : State :=
  { sC4 with
    stoppers := Function.update sC4.stoppers 0 (StopperSt.finished none),
    log := sC4.log ++ [stopEvent 0 none] }

abbrev sC6 : State :=
  { sC5 with
    mainst := MainSt.done, signalRegistered := false }

/-- One process whose `Stop` never returns. -/
abbrev cfgHang : Config :=
  { K := 1,
    runBeh := fun _ => RunBeh.ret none,
    stopBeh := fun _ => StopBeh.hangs }

/-- Execution of `cfgHang`: an external signal triggers shutdown; the
stop fan-out starts and can never be joined. -/
abbrev sH0 : State := initState cfgHang

abbrev sH1 : State := { sH0 with
    mainst := MainSt.triggered }

abbrev sH2 : State :=
  { sH1 with
    mainst := MainSt.stopping,
    shutdownCount := sH1.shutdownCount + 1,
    stopCtx := some thenStopCtx,
    log := sH1.log ++ [Event.receivedStopLog] }

/-- Two processes: process 0's `Stop` fails with error 3, process 1's
`Stop` succeeds. -/
abbrev cfgStopErr : Config :=
  { K := 2,
    runBeh := fun _ => RunBeh.ret none,
    stopBeh := fun i => if i = 0 then StopBeh.ret (some 3) else StopBeh.ret none }

/-- Execution of `cfgStopErr`: an external signal triggers shutdown and
process 0's stop fails. -/
abbrev sE0 : State := initState cfgStopErr

abbrev sE1 : State := { sE0 with
    mainst := MainSt.triggered }

abbrev sE2 : State :=
  { sE1 with
    mainst := MainSt.stopping,
    shutdownCount := sE1.shutdownCount + 1,
    stopCtx := some thenStopCtx,
    log := sE1.log ++ [Event.receivedStopLog] }

abbrev sE3 : State :=
  { sE2 with
    stoppers := Function.update sE2.stoppers 0 (StopperSt.finished (some 3)),
    log := sE2.log ++ [stopEvent 0 (some 3)] }

/-- The global inductive invariant of the system: all facts preserved by
every interleaving step, from which the specification's properties are
derived. -/
structure Inv (cfg : Config) (s : State) : Prop where
  count_eq : s.shutdownCount =
    (if s.mainst = MainSt.stopping ∨ s.mainst = MainSt.done then 1 else 0)
  no_panic : s.panicked = false
  not_closed : s.errorsClosed = false
  signal_reg : s.signalRegistered = (if s.mainst = MainSt.done then false else true)
  pub_split : s.published = s.consumed ++ s.queue
  consumed_le : s.consumed.length ≤ 1
  consumed_sel : s.monitor = MonitorSt.selecting → s.consumed = []
  pub_runner : ∀ rec, rec ∈ s.published →
    rec.process < cfg.K ∧ cfg.runBeh rec.process = RunBeh.ret (some rec.err) ∧
      s.runners rec.process = RunnerSt.doneSent
  pub_nodup : (s.published.map ProcessError.process).Nodup
  sent_pub : ∀ i, s.runners i = RunnerSt.doneSent →
    ∃ e, cfg.runBeh i = RunBeh.ret (some e) ∧ ProcessError.mk i e ∈ s.published
  pend_beh : ∀ i e, s.runners i = RunnerSt.sendPending e →
    cfg.runBeh i = RunBeh.ret (some e)
  runner_oob : ∀ i, cfg.K ≤ i → s.runners i = RunnerSt.idle
  stopper_beh : ∀ i o, s.stoppers i = StopperSt.finished o →
    i < cfg.K ∧ cfg.stopBeh i = StopBeh.ret o ∧
      (s.mainst = MainSt.stopping ∨ s.mainst = MainSt.done)
  stopper_pre : s.mainst = MainSt.waitingTrigger ∨ s.mainst = MainSt.triggered →
    ∀ i, s.stoppers i = StopperSt.notStarted
  stopper_log_ok : ∀ i, s.stoppers i = StopperSt.finished none →
    Event.stoppedLog i ∈ s.log
  stopper_log_err : ∀ i e, s.stoppers i = StopperSt.finished (some e) →
    Event.failedToStopLog i e ∈ s.log
  monitor_cause : s.monitor ≠ MonitorSt.selecting →
    (s.published ≠ [] ∨ s.ctxCancelled = true)
  no_completed : ∀ i, Event.completed i ∉ s.log
  ctx_set : s.stopCtx =
    (if s.mainst = MainSt.stopping ∨ s.mainst = MainSt.done
     then some thenStopCtx else none)
  join_done : s.mainst = MainSt.done →
    ∀ i, i < cfg.K → s.stoppers i ≠ StopperSt.notStarted

theorem reach_trans {cfg : Config} {a b c : State}
    (h1 : Reach cfg a b) (h2 : Reach cfg b c) : Reach cfg a c := by
  induction h2 with
  | refl => exact h1
  | tail _ hstep ih => exact Reach.tail ih hstep

theorem inv_init (cfg : Config) : Inv cfg (initState cfg) := by
  constructor <;> simp [initState]

theorem inv_step {cfg : Config} {s s' : State}
    (hInv : Inv cfg s) (st : Step cfg s s') : Inv cfg s' := by
  cases st with
  | runnerBegin i hK hidle =>
      exact
      { count_eq := hInv.count_eq
      , no_panic := hInv.no_panic
      , not_closed := hInv.not_closed
      , signal_reg := hInv.signal_reg
      , pub_split := hInv.pub_split
      , consumed_le := hInv.consumed_le
      , consumed_sel := hInv.consumed_sel
      , pub_runner := by
          intro rec hrec
          obtain ⟨h1, h2, h3⟩ := hInv.pub_runner rec hrec
          refine ⟨h1, h2, ?_⟩
          dsimp only
          rcases eq_or_ne rec.process i with he | hne
          · rw [he, hidle] at h3; simp at h3
          · rw [Function.update_noteq hne]; exact h3
      , pub_nodup := hInv.pub_nodup
      , sent_pub := by
          intro i' hds
          dsimp only at hds
          rcases eq_or_ne i' i with rfl | hne
          · rw [Function.update_same] at hds; simp at hds
          · rw [Function.update_noteq hne] at hds
            exact hInv.sent_pub i' hds
      , pend_beh := by
          intro i' e hp
          dsimp only at hp
          rcases eq_or_ne i' i with rfl | hne
          · rw [Function.update_same] at hp; simp at hp
          · rw [Function.update_noteq hne] at hp
            exact hInv.pend_beh i' e hp
      , runner_oob := by
          intro i' hge
          dsimp only
          have hne : i' ≠ i := by omega
          rw [Function.update_noteq hne]
          exact hInv.runner_oob i' hge
      , stopper_beh := hInv.stopper_beh
      , stopper_pre := hInv.stopper_pre
      , stopper_log_ok := fun i' hf =>
          List.mem_append.mpr (Or.inl (hInv.stopper_log_ok i' hf))
      , stopper_log_err := fun i' e hf =>
          List.mem_append.mpr (Or.inl (hInv.stopper_log_err i' e hf))
      , monitor_cause := hInv.monitor_cause
      , no_completed := by
          intro i' hmem
          rcases List.mem_append.mp hmem with hl | hr
          · exact hInv.no_completed i' hl
          · simp at hr
      , ctx_set := hInv.ctx_set
      , join_done := hInv.join_done }
  | runnerFinishOk i hK hrun hb =>
      exact
      { count_eq := hInv.count_eq
      , no_panic := hInv.no_panic
      , not_closed := hInv.not_closed
      , signal_reg := hInv.signal_reg
      , pub_split := hInv.pub_split
      , consumed_le := hInv.consumed_le
      , consumed_sel := hInv.consumed_sel
      , pub_runner := by
          intro rec hrec
          obtain ⟨h1, h2, h3⟩ := hInv.pub_runner rec hrec
          refine ⟨h1, h2, ?_⟩
          dsimp only
          rcases eq_or_ne rec.process i with he | hne
          · rw [he, hrun] at h3; simp at h3
          · rw [Function.update_noteq hne]; exact h3
      , pub_nodup := hInv.pub_nodup
      , sent_pub := by
          intro i' hds
          dsimp only at hds
          rcases eq_or_ne i' i with rfl | hne
          · rw [Function.update_same] at hds; simp at hds
          · rw [Function.update_noteq hne] at hds
            exact hInv.sent_pub i' hds
      , pend_beh := by
          intro i' e hp
          dsimp only at hp
          rcases eq_or_ne i' i with rfl | hne
          · rw [Function.update_same] at hp; simp at hp
          · rw [Function.update_noteq hne] at hp
            exact hInv.pend_beh i' e hp
      , runner_oob := by
          intro i' hge
          dsimp only
          have hne : i' ≠ i := by omega
          rw [Function.update_noteq hne]
          exact hInv.runner_oob i' hge
      , stopper_beh := hInv.stopper_beh
      , stopper_pre := hInv.stopper_pre
      , stopper_log_ok := hInv.stopper_log_ok
      , stopper_log_err := hInv.stopper_log_err
      , monitor_cause := hInv.monitor_cause
      , no_completed := hInv.no_completed
      , ctx_set := hInv.ctx_set
      , join_done := hInv.join_done }
  | runnerFail i e hK hrun hb =>
      exact
      { count_eq := hInv.count_eq
      , no_panic := hInv.no_panic
      , not_closed := hInv.not_closed
      , signal_reg := hInv.signal_reg
      , pub_split := hInv.pub_split
      , consumed_le := hInv.consumed_le
      , consumed_sel := hInv.consumed_sel
      , pub_runner := by
          intro rec hrec
          obtain ⟨h1, h2, h3⟩ := hInv.pub_runner rec hrec
          refine ⟨h1, h2, ?_⟩
          dsimp only
          rcases eq_or_ne rec.process i with he | hne
          · rw [he, hrun] at h3; simp at h3
          · rw [Function.update_noteq hne]; exact h3
      , pub_nodup := hInv.pub_nodup
      , sent_pub := by
          intro i' hds
          dsimp only at hds
          rcases eq_or_ne i' i with rfl | hne
          · rw [Function.update_same] at hds; simp at hds
          · rw [Function.update_noteq hne] at hds
            exact hInv.sent_pub i' hds
      , pend_beh := by
          intro i' e' hp
          dsimp only at hp
          rcases eq_or_ne i' i with rfl | hne
          · rw [Function.update_same] at hp
            injection hp with he'
            subst he'
            exact hb
          · rw [Function.update_noteq hne] at hp
            exact hInv.pend_beh i' e' hp
      , runner_oob := by
          intro i' hge
          dsimp only
          have hne : i' ≠ i := by omega
          rw [Function.update_noteq hne]
          exact hInv.runner_oob i' hge
      , stopper_beh := hInv.stopper_beh
      , stopper_pre := hInv.stopper_pre
      , stopper_log_ok := hInv.stopper_log_ok
      , stopper_log_err := hInv.stopper_log_err
      , monitor_cause := hInv.monitor_cause
      , no_completed := hInv.no_completed
      , ctx_set := hInv.ctx_set
      , join_done := hInv.join_done }
  | runnerSend i e hK hpend hq =>
      exact
      { count_eq := hInv.count_eq
      , no_panic := hInv.no_panic
      , not_closed := hInv.not_closed
      , signal_reg := hInv.signal_reg
      , pub_split := by
          dsimp only
          rw [hInv.pub_split, List.append_assoc]
      , consumed_le := hInv.consumed_le
      , consumed_sel := hInv.consumed_sel
      , pub_runner := by
          intro rec hrec
          dsimp only at hrec ⊢
          rcases List.mem_append.mp hrec with hold | hnew
          · obtain ⟨h1, h2, h3⟩ := hInv.pub_runner rec hold
            have hne : rec.process ≠ i := by
              intro he
              rw [he, hpend] at h3
              simp at h3
            refine ⟨h1, h2, ?_⟩
            rw [Function.update_noteq hne]
            exact h3
          · have : rec = ProcessError.mk i e := List.mem_singleton.mp hnew
            subst this
            exact ⟨hK, hInv.pend_beh i e hpend, Function.update_same ..⟩
      , pub_nodup := by
          dsimp only
          rw [List.map_append]
          refine List.Nodup.append hInv.pub_nodup (by simp) ?_
          intro a ha hb
          simp at hb
          subst hb
          obtain ⟨rec, hrec, hpr⟩ := List.mem_map.mp ha
          obtain ⟨-, -, h3⟩ := hInv.pub_runner rec hrec
          rw [hpr, hpend] at h3
          simp at h3
      , sent_pub := by
          intro i' hds
          dsimp only at hds ⊢
          rcases eq_or_ne i' i with rfl | hne
          · exact ⟨e, hInv.pend_beh i' e hpend,
              List.mem_append.mpr (Or.inr (by simp))⟩
          · rw [Function.update_noteq hne] at hds
            obtain ⟨e', hb', hmem⟩ := hInv.sent_pub i' hds
            exact ⟨e', hb', List.mem_append.mpr (Or.inl hmem)⟩
      , pend_beh := by
          intro i' e' hp
          dsimp only at hp
          rcases eq_or_ne i' i with rfl | hne
          · rw [Function.update_same] at hp; simp at hp
          · rw [Function.update_noteq hne] at hp
            exact hInv.pend_beh i' e' hp
      , runner_oob := by
          intro i' hge
          dsimp only
          have hne : i' ≠ i := by omega
          rw [Function.update_noteq hne]
          exact hInv.runner_oob i' hge
      , stopper_beh := hInv.stopper_beh
      , stopper_pre := hInv.stopper_pre
      , stopper_log_ok := hInv.stopper_log_ok
      , stopper_log_err := hInv.stopper_log_err
      , monitor_cause := by
          intro _
          left
          dsimp only
          simp
      , no_completed := hInv.no_completed
      , ctx_set := hInv.ctx_set
      , join_done := hInv.join_done }
  | cancelParent hc =>
      exact
      { count_eq := hInv.count_eq
      , no_panic := hInv.no_panic
      , not_closed := hInv.not_closed
      , signal_reg := hInv.signal_reg
      , pub_split := hInv.pub_split
      , consumed_le := hInv.consumed_le
      , consumed_sel := hInv.consumed_sel
      , pub_runner := hInv.pub_runner
      , pub_nodup := hInv.pub_nodup
      , sent_pub := hInv.sent_pub
      , pend_beh := hInv.pend_beh
      , runner_oob := hInv.runner_oob
      , stopper_beh := hInv.stopper_beh
      , stopper_pre := hInv.stopper_pre
      , stopper_log_ok := hInv.stopper_log_ok
      , stopper_log_err := hInv.stopper_log_err
      , monitor_cause := fun _ => Or.inr rfl
      , no_completed := hInv.no_completed
      , ctx_set := hInv.ctx_set
      , join_done := hInv.join_done }
  | monitorRecv rec rest hm hq =>
      exact
      { count_eq := hInv.count_eq
      , no_panic := hInv.no_panic
      , not_closed := hInv.not_closed
      , signal_reg := hInv.signal_reg
      , pub_split := by
          dsimp only
          rw [hInv.pub_split, hq]
          simp
      , consumed_le := by
          dsimp only
          rw [hInv.consumed_sel hm]
          simp
      , consumed_sel := by
          intro h'
          dsimp only at h'
          simp at h'
      , pub_runner := hInv.pub_runner
      , pub_nodup := hInv.pub_nodup
      , sent_pub := hInv.sent_pub
      , pend_beh := hInv.pend_beh
      , runner_oob := hInv.runner_oob
      , stopper_beh := hInv.stopper_beh
      , stopper_pre := hInv.stopper_pre
      , stopper_log_ok := fun i' hf =>
          List.mem_append.mpr (Or.inl (hInv.stopper_log_ok i' hf))
      , stopper_log_err := fun i' e hf =>
          List.mem_append.mpr (Or.inl (hInv.stopper_log_err i' e hf))
      , monitor_cause := by
          intro _
          left
          rw [hInv.pub_split, hq]
          simp
      , no_completed := by
          intro i' hmem
          rcases List.mem_append.mp hmem with hl | hr
          · exact hInv.no_completed i' hl
          · simp at hr
      , ctx_set := hInv.ctx_set
      , join_done := hInv.join_done }
  | monitorCtxDone hm hc =>
      exact
      { count_eq := hInv.count_eq
      , no_panic := hInv.no_panic
      , not_closed := hInv.not_closed
      , signal_reg := hInv.signal_reg
      , pub_split := hInv.pub_split
      , consumed_le := hInv.consumed_le
      , consumed_sel := by
          intro h'
          dsimp only at h'
          simp at h'
      , pub_runner := hInv.pub_runner
      , pub_nodup := hInv.pub_nodup
      , sent_pub := hInv.sent_pub
      , pend_beh := hInv.pend_beh
      , runner_oob := hInv.runner_oob
      , stopper_beh := hInv.stopper_beh
      , stopper_pre := hInv.stopper_pre
      , stopper_log_ok := fun i' hf =>
          List.mem_append.mpr (Or.inl (hInv.stopper_log_ok i' hf))
      , stopper_log_err := fun i' e hf =>
          List.mem_append.mpr (Or.inl (hInv.stopper_log_err i' e hf))
      , monitor_cause := fun _ => Or.inr hc
      , no_completed := by
          intro i' hmem
          rcases List.mem_append.mp hmem with hl | hr
          · exact hInv.no_completed i' hl
          · simp at hr
      , ctx_set := hInv.ctx_set
      , join_done := hInv.join_done }
  | monitorArm hm hw =>
      exact
      { count_eq := by
          dsimp only
          simp [hInv.count_eq, hw]
      , no_panic := hInv.no_panic
      , not_closed := hInv.not_closed
      , signal_reg := by
          dsimp only
          simp [hInv.signal_reg, hw]
      , pub_split := hInv.pub_split
      , consumed_le := hInv.consumed_le
      , consumed_sel := by
          intro h'
          dsimp only at h'
          simp at h'
      , pub_runner := hInv.pub_runner
      , pub_nodup := hInv.pub_nodup
      , sent_pub := hInv.sent_pub
      , pend_beh := hInv.pend_beh
      , runner_oob := hInv.runner_oob
      , stopper_beh := by
          intro i o hf
          dsimp only at hf
          rw [hInv.stopper_pre (Or.inl hw) i] at hf
          simp at hf
      , stopper_pre := fun _ => hInv.stopper_pre (Or.inl hw)
      , stopper_log_ok := hInv.stopper_log_ok
      , stopper_log_err := hInv.stopper_log_err
      , monitor_cause := fun _ => hInv.monitor_cause (by rw [hm]; simp)
      , no_completed := hInv.no_completed
      , ctx_set := by
          dsimp only
          simp [hInv.ctx_set, hw]
      , join_done := by
          intro h'
          dsimp only at h'
          simp at h' }
  | signalArrive hr hw =>
      exact
      { count_eq := by
          dsimp only
          simp [hInv.count_eq, hw]
      , no_panic := hInv.no_panic
      , not_closed := hInv.not_closed
      , signal_reg := by
          dsimp only
          simp [hInv.signal_reg, hw]
      , pub_split := hInv.pub_split
      , consumed_le := hInv.consumed_le
      , consumed_sel := hInv.consumed_sel
      , pub_runner := hInv.pub_runner
      , pub_nodup := hInv.pub_nodup
      , sent_pub := hInv.sent_pub
      , pend_beh := hInv.pend_beh
      , runner_oob := hInv.runner_oob
      , stopper_beh := by
          intro i o hf
          dsimp only at hf
          rw [hInv.stopper_pre (Or.inl hw) i] at hf
          simp at hf
      , stopper_pre := fun _ => hInv.stopper_pre (Or.inl hw)
      , stopper_log_ok := hInv.stopper_log_ok
      , stopper_log_err := hInv.stopper_log_err
      , monitor_cause := hInv.monitor_cause
      , no_completed := hInv.no_completed
      , ctx_set := by
          dsimp only
          simp [hInv.ctx_set, hw]
      , join_done := by
          intro h'
          dsimp only at h'
          simp at h' }
  | mainStartShutdown hm =>
      exact
      { count_eq := by
          dsimp only
          simp [hInv.count_eq, hm]
      , no_panic := hInv.no_panic
      , not_closed := hInv.not_closed
      , signal_reg := by
          dsimp only
          simp [hInv.signal_reg, hm]
      , pub_split := hInv.pub_split
      , consumed_le := hInv.consumed_le
      , consumed_sel := hInv.consumed_sel
      , pub_runner := hInv.pub_runner
      , pub_nodup := hInv.pub_nodup
      , sent_pub := hInv.sent_pub
      , pend_beh := hInv.pend_beh
      , runner_oob := hInv.runner_oob
      , stopper_beh := by
          intro i o hf
          dsimp only at hf
          rw [hInv.stopper_pre (Or.inr hm) i] at hf
          simp at hf
      , stopper_pre := by
          intro h'
          dsimp only at h'
          rcases h' with h' | h' <;> simp at h'
      , stopper_log_ok := fun i' hf =>
          List.mem_append.mpr (Or.inl (hInv.stopper_log_ok i' hf))
      , stopper_log_err := fun i' e hf =>
          List.mem_append.mpr (Or.inl (hInv.stopper_log_err i' e hf))
      , monitor_cause := hInv.monitor_cause
      , no_completed := by
          intro i' hmem
          rcases List.mem_append.mp hmem with hl | hr
          · exact hInv.no_completed i' hl
          · simp at hr
      , ctx_set := by
          dsimp only
          simp
      , join_done := by
          intro h'
          dsimp only at h'
          simp at h' }
  | stopperFinish i o hK hm hns hb =>
      exact
      { count_eq := hInv.count_eq
      , no_panic := hInv.no_panic
      , not_closed := hInv.not_closed
      , signal_reg := hInv.signal_reg
      , pub_split := hInv.pub_split
      , consumed_le := hInv.consumed_le
      , consumed_sel := hInv.consumed_sel
      , pub_runner := hInv.pub_runner
      , pub_nodup := hInv.pub_nodup
      , sent_pub := hInv.sent_pub
      , pend_beh := hInv.pend_beh
      , runner_oob := hInv.runner_oob
      , stopper_beh := by
          intro i' o' hf
          dsimp only at hf ⊢
          rcases eq_or_ne i' i with rfl | hne
          · rw [Function.update_same] at hf
            injection hf with ho
            subst ho
            exact ⟨hK, hb, Or.inl hm⟩
          · rw [Function.update_noteq hne] at hf
            obtain ⟨a, b, -⟩ := hInv.stopper_beh i' o' hf
            exact ⟨a, b, Or.inl hm⟩
      , stopper_pre := by
          intro h'
          dsimp only at h'
          rcases h' with h' | h' <;> (rw [hm] at h'; simp at h')
      , stopper_log_ok := by
          intro i' hf
          dsimp only at hf ⊢
          rcases eq_or_ne i' i with rfl | hne
          · rw [Function.update_same] at hf
            injection hf with ho
            subst ho
            exact List.mem_append.mpr (Or.inr (by simp [stopEvent]))
          · rw [Function.update_noteq hne] at hf
            exact List.mem_append.mpr (Or.inl (hInv.stopper_log_ok i' hf))
      , stopper_log_err := by
          intro i' e hf
          dsimp only at hf ⊢
          rcases eq_or_ne i' i with rfl | hne
          · rw [Function.update_same] at hf
            injection hf with ho
            subst ho
            exact List.mem_append.mpr (Or.inr (by simp [stopEvent]))
          · rw [Function.update_noteq hne] at hf
            exact List.mem_append.mpr (Or.inl (hInv.stopper_log_err i' e hf))
      , monitor_cause := hInv.monitor_cause
      , no_completed := by
          intro i' hmem
          rcases List.mem_append.mp hmem with hl | hr
          · exact hInv.no_completed i' hl
          · cases o <;> simp [stopEvent] at hr
      , ctx_set := hInv.ctx_set
      , join_done := by
          intro h'
          dsimp only at h'
          rw [hm] at h'
          simp at h' }
  | mainJoin hm hall =>
      exact
      { count_eq := by
          dsimp only
          simp [hInv.count_eq, hm]
      , no_panic := hInv.no_panic
      , not_closed := hInv.not_closed
      , signal_reg := by
          dsimp only
          simp
      , pub_split := hInv.pub_split
      , consumed_le := hInv.consumed_le
      , consumed_sel := hInv.consumed_sel
      , pub_runner := hInv.pub_runner
      , pub_nodup := hInv.pub_nodup
      , sent_pub := hInv.sent_pub
      , pend_beh := hInv.pend_beh
      , runner_oob := hInv.runner_oob
      , stopper_beh := by
          intro i o hf
          obtain ⟨a, b, -⟩ := hInv.stopper_beh i o hf
          exact ⟨a, b, Or.inr rfl⟩
      , stopper_pre := by
          intro h'
          dsimp only at h'
          rcases h' with h' | h' <;> simp at h'
      , stopper_log_ok := hInv.stopper_log_ok
      , stopper_log_err := hInv.stopper_log_err
      , monitor_cause := hInv.monitor_cause
      , no_completed := hInv.no_completed
      , ctx_set := by
          dsimp only
          simp [hInv.ctx_set, hm]
      , join_done := fun _ i hiK => hall i hiK }

/-- Every reachable state satisfies the invariant (from any
invariant-satisfying start). -/
theorem inv_steps {cfg : Config} {s t : State}
    (hInv : Inv cfg s) (h : Reach cfg s t) : Inv cfg t := by
  induction h with
  | refl => exact hInv
  | tail _ hstep ih => exact inv_step ih hstep

/-- Every state reachable from the initial state satisfies the
invariant. -/
theorem inv_reach {cfg : Config} {s : State}
    (h : Reachable cfg s) : Inv cfg s :=
  inv_steps (inv_init cfg) h

/-- At most `K` failure records are ever published: the records carry
pairwise-distinct process indices, all below `K`. -/
theorem pub_length_le {cfg : Config} {s : State} (h : Inv cfg s) :
    s.published.length ≤ cfg.K := by
  classical
  have hcard : (s.published.map ProcessError.process).toFinset.card
      = (s.published.map ProcessError.process).length :=
    List.toFinset_card_of_nodup h.pub_nodup
  have hsub : (s.published.map ProcessError.process).toFinset
      ⊆ Finset.range cfg.K := by
    intro x hx
    rw [List.mem_toFinset] at hx
    obtain ⟨rec, hrec, hpr⟩ := List.mem_map.mp hx
    obtain ⟨h1, -, -⟩ := h.pub_runner rec hrec
    rw [Finset.mem_range]
    exact hpr ▸ h1
  calc s.published.length
      = (s.published.map ProcessError.process).length := by simp
    _ = (s.published.map ProcessError.process).toFinset.card := hcard.symm
    _ ≤ (Finset.range cfg.K).card := Finset.card_le_card hsub
    _ = cfg.K := Finset.card_range _

/-- While some runner still has its failure-record send pending, strictly
fewer than `K` records have been published (that runner has not published
yet). -/
theorem pub_length_lt {cfg : Config} {s : State} (h : Inv cfg s)
    {i e : Nat} (hp : s.runners i = RunnerSt.sendPending e)
    (hiK : i < cfg.K) : s.published.length < cfg.K := by
  classical
  have hcard : (s.published.map ProcessError.process).toFinset.card
      = (s.published.map ProcessError.process).length :=
    List.toFinset_card_of_nodup h.pub_nodup
  have hsub : (s.published.map ProcessError.process).toFinset
      ⊆ (Finset.range cfg.K).erase i := by
    intro x hx
    rw [List.mem_toFinset] at hx
    obtain ⟨rec, hrec, hpr⟩ := List.mem_map.mp hx
    obtain ⟨h1, -, h3⟩ := h.pub_runner rec hrec
    rw [Finset.mem_erase, Finset.mem_range]
    refine ⟨?_, hpr ▸ h1⟩
    intro hxi
    rw [hxi] at hpr
    rw [hpr] at h3
    rw [hp] at h3
    simp at h3
  have hle := Finset.card_le_card hsub
  rw [Finset.card_erase_of_mem (Finset.mem_range.mpr hiK),
      Finset.card_range] at hle
  have hlen : s.published.length = (s.published.map ProcessError.process).length := by
    simp
  omega

/-- The queue never holds more records than were ever published. -/
theorem queue_length_le_pub {cfg : Config} {s : State} (h : Inv cfg s) :
    s.queue.length ≤ s.published.length := by
  rw [h.pub_split, List.length_append]
  omega

/-- A runner goroutine that has completed its failure-record send has
returned: no step moves it anywhere else. -/
theorem runner_doneSent_stable {cfg : Config} {s t : State}
    (hst : Step cfg s t) {i : Nat}
    (h : s.runners i = RunnerSt.doneSent) :
    t.runners i = RunnerSt.doneSent := by
  cases hst with
  | runnerBegin j hK hj =>
      dsimp only
      rcases eq_or_ne i j with rfl | hne
      · rw [h] at hj; simp at hj
      · rw [Function.update_noteq hne]; exact h
  | runnerFinishOk j hK hj hb =>
      dsimp only
      rcases eq_or_ne i j with rfl | hne
      · rw [h] at hj; simp at hj
      · rw [Function.update_noteq hne]; exact h
  | runnerFail j e hK hj hb =>
      dsimp only
      rcases eq_or_ne i j with rfl | hne
      · rw [h] at hj; simp at hj
      · rw [Function.update_noteq hne]; exact h
  | runnerSend j e hK hj hq =>
      dsimp only
      rcases eq_or_ne i j with rfl | hne
      · rw [Function.update_same]
      · rw [Function.update_noteq hne]; exact h
  | cancelParent hc => exact h
  | monitorRecv rec rest hm hq => exact h
  | monitorCtxDone hm hc => exact h
  | monitorArm hm hw => exact h
  | signalArrive hr hw => exact h
  | mainStartShutdown hm => exact h
  | stopperFinish j o hK hm hns hb => exact h
  | mainJoin hm hall => exact h

/-- A stopper goroutine that has finished stays finished with the same
outcome: shutdown of a process is never retried. -/
theorem stopper_finished_stable {cfg : Config} {s t : State}
    (hst : Step cfg s t) {i : Nat} {o : Option Nat}
    (h : s.stoppers i = StopperSt.finished o) :
    t.stoppers i = StopperSt.finished o := by
  cases hst with
  | runnerBegin j hK hj => exact h
  | runnerFinishOk j hK hj hb => exact h
  | runnerFail j e hK hj hb => exact h
  | runnerSend j e hK hj hq => exact h
  | cancelParent hc => exact h
  | monitorRecv rec rest hm hq => exact h
  | monitorCtxDone hm hc => exact h
  | monitorArm hm hw => exact h
  | signalArrive hr hw => exact h
  | mainStartShutdown hm => exact h
  | stopperFinish j o' hK hm hns hb =>
      dsimp only
      rcases eq_or_ne i j with rfl | hne
      · rw [h] at hns; simp at hns
      · rw [Function.update_noteq hne]; exact h
  | mainJoin hm hall => exact h

/-- Once the shutdown phase has begun, the main goroutine stays in it
forever (it moves only from `stopping` to `done`): the shutdown body is
never re-entered. -/
theorem phase_stable {cfg : Config} {s t : State}
    (hst : Step cfg s t)
    (h : s.mainst = MainSt.stopping ∨ s.mainst = MainSt.done) :
    t.mainst = MainSt.stopping ∨ t.mainst = MainSt.done := by
  cases hst with
  | runnerBegin j hK hj => exact h
  | runnerFinishOk j hK hj hb => exact h
  | runnerFail j e hK hj hb => exact h
  | runnerSend j e hK hj hq => exact h
  | cancelParent hc => exact h
  | monitorRecv rec rest hm hq => exact h
  | monitorCtxDone hm hc => exact h
  | monitorArm hm hw =>
      rcases h with h | h <;> (rw [hw] at h; simp at h)
  | signalArrive hr hw =>
      rcases h with h | h <;> (rw [hw] at h; simp at h)
  | mainStartShutdown hm =>
      rcases h with h | h <;> (rw [hm] at h; simp at h)
  | stopperFinish j o hK hm hns hb => exact h
  | mainJoin hm hall => exact Or.inr rfl

theorem runner_doneSent_reach {cfg : Config} {s t : State}
    (h : Reach cfg s t) {i : Nat}
    (hd : s.runners i = RunnerSt.doneSent) :
    t.runners i = RunnerSt.doneSent := by
  induction h with
  | refl => exact hd
  | tail _ hstep ih => exact runner_doneSent_stable hstep ih

theorem stopper_finished_reach {cfg : Config} {s t : State}
    (h : Reach cfg s t) {i : Nat} {o : Option Nat}
    (hf : s.stoppers i = StopperSt.finished o) :
    t.stoppers i = StopperSt.finished o := by
  induction h with
  | refl => exact hf
  | tail _ hstep ih => exact stopper_finished_stable hstep ih

theorem phase_reach {cfg : Config} {s t : State}
    (h : Reach cfg s t)
    (hp : s.mainst = MainSt.stopping ∨ s.mainst = MainSt.done) :
    t.mainst = MainSt.stopping ∨ t.mainst = MainSt.done := by
  induction h with
  | refl => exact hp
  | tail _ hstep ih => exact phase_stable hstep ih

theorem reachF1 : Reachable cfgFail sF1 :=
  Reach.tail (Reach.refl _) (Step.runnerBegin sF0 0 (by decide) rfl)

theorem reachF2 : Reachable cfgFail sF2 :=
  Reach.tail reachF1 (Step.runnerFail sF1 0 7 (by decide) rfl rfl)

theorem reachF3 : Reachable cfgFail sF3 :=
  Reach.tail reachF2 (Step.runnerSend sF2 0 7 (by decide) rfl (by decide))

theorem reachF4 : Reachable cfgFail sF4 :=
  Reach.tail reachF3
    (Step.monitorRecv sF3 (ProcessError.mk 0 7) [] rfl rfl)

theorem reachF5 : Reachable cfgFail sF5 :=
  Reach.tail reachF4 (Step.monitorArm sF4 rfl rfl)

theorem reachF6 : Reachable cfgFail sF6 :=
  Reach.tail reachF5 (Step.mainStartShutdown sF5 rfl)

theorem reachF7 : Reachable cfgFail sF7 :=
  Reach.tail reachF6 (Step.stopperFinish sF6 0 none (by decide) rfl rfl rfl)

theorem reachF8 : Reachable cfgFail sF8 :=
  Reach.tail reachF7 (Step.mainJoin sF7 rfl (by decide))

theorem reachC1 : Reachable cfgClean sC1 :=
  Reach.tail (Reach.refl _) (Step.runnerBegin sC0 0 (by decide) rfl)

theorem reachC2 : Reachable cfgClean sC2 :=
  Reach.tail reachC1 (Step.runnerFinishOk sC1 0 (by decide) rfl rfl)

theorem reachC3 : Reachable cfgClean sC3 :=
  Reach.tail reachC2 (Step.signalArrive sC2 rfl rfl)

theorem reachC4 : Reachable cfgClean sC4 :=
  Reach.tail reachC3 (Step.mainStartShutdown sC3 rfl)

theorem reachC5 : Reachable cfgClean sC5 :=
  Reach.tail reachC4 (Step.stopperFinish sC4 0 none (by decide) rfl rfl rfl)

theorem reachC6 : Reachable cfgClean sC6 :=
  Reach.tail reachC5 (Step.mainJoin sC5 rfl (by decide))

theorem reachH1 : Reachable cfgHang sH1 :=
  Reach.tail (Reach.refl _) (Step.signalArrive sH0 rfl rfl)

theorem reachH2 : Reachable cfgHang sH2 :=
  Reach.tail reachH1 (Step.mainStartShutdown sH1 rfl)

theorem reachE1 : Reachable cfgStopErr sE1 :=
  Reach.tail (Reach.refl _) (Step.signalArrive sE0 rfl rfl)

theorem reachE2 : Reachable cfgStopErr sE2 :=
  Reach.tail reachE1 (Step.mainStartShutdown sE1 rfl)

theorem reachE3 : Reachable cfgStopErr sE3 :=
  Reach.tail reachE2 (Step.stopperFinish sE2 0 (some 3) (by decide) rfl rfl rfl)

/-- From any invariant state in the stop fan-out, if every process's
`Stop` eventually returns, the fan-out can be driven to completion:
`wg.Wait()` passes and every stop outcome has been collected. -/
theorem finish_all {cfg : Config} {s : State}
    (hInv : Inv cfg s) (hm : s.mainst = MainSt.stopping)
    (hb : ∀ i, i < cfg.K → ∃ o, cfg.stopBeh i = StopBeh.ret o) :
    ∃ t, Reach cfg s t ∧ t.mainst = MainSt.done ∧
      ∀ i, i < cfg.K → ∃ o, cfg.stopBeh i = StopBeh.ret o ∧
        t.stoppers i = StopperSt.finished o := by
  suffices h : ∀ n, n ≤ cfg.K → ∃ t, Reach cfg s t ∧
      t.mainst = MainSt.stopping ∧
      (∀ i, i < n → ∃ o, cfg.stopBeh i = StopBeh.ret o ∧
        t.stoppers i = StopperSt.finished o) ∧
      (∀ i, n ≤ i → t.stoppers i = s.stoppers i) by
    obtain ⟨t, hr, hm', hfin, -⟩ := h cfg.K le_rfl
    refine ⟨{ t with mainst := MainSt.done, signalRegistered := false },
      Reach.tail hr (Step.mainJoin t hm' ?_), rfl, ?_⟩
    · intro i hiK
      obtain ⟨o, -, hf⟩ := hfin i hiK
      rw [hf]
      simp
    · intro i hiK
      obtain ⟨o, ho, hf⟩ := hfin i hiK
      exact ⟨o, ho, hf⟩
  intro n
  induction n with
  | zero =>
      intro _
      exact ⟨s, Reach.refl s, hm,
        fun i hi => absurd hi (Nat.not_lt_zero i), fun i _ => rfl⟩
  | succ n ihn =>
      intro hn
      obtain ⟨t, hr, hm', hfin, hrest⟩ := ihn (by omega)
      have hInvt : Inv cfg t := inv_steps hInv hr
      have hnK : n < cfg.K := by omega
      obtain ⟨o, ho⟩ := hb n hnK
      cases hcase : t.stoppers n with
      | notStarted =>
          refine ⟨{ t with
              stoppers := Function.update t.stoppers n (StopperSt.finished o)
            , log := t.log ++ [stopEvent n o] },
            Reach.tail hr (Step.stopperFinish t n o hnK hm' hcase ho),
            hm', ?_, ?_⟩
          · intro i hi
            dsimp only
            rcases eq_or_ne i n with rfl | hne
            · exact ⟨o, ho, Function.update_same ..⟩
            · have hi' : i < n := by omega
              obtain ⟨o', ho', hf⟩ := hfin i hi'
              exact ⟨o', ho', by rw [Function.update_noteq hne]; exact hf⟩
          · intro i hi
            dsimp only
            have hne : i ≠ n := by omega
            rw [Function.update_noteq hne]
            exact hrest i (by omega)
      | finished o' =>
          obtain ⟨-, hbo', -⟩ := hInvt.stopper_beh n o' hcase
          refine ⟨t, hr, hm', ?_, ?_⟩
          · intro i hi
            rcases eq_or_ne i n with rfl | hne
            · exact ⟨o', hbo', hcase⟩
            · exact hfin i (by omega)
          · intro i hi
            exact hrest i (by omega)

/-- In the configuration where the single process's `Stop` never
returns, no reachable state has a finished stopper, and the main
goroutine never gets past `wg.Wait()`. -/
theorem hang_blocks {s : State} (h : Reachable cfgHang s) :
    (∀ o, s.stoppers 0 ≠ StopperSt.finished o) ∧ s.mainst ≠ MainSt.done := by
  induction h with
  | refl => constructor <;> simp [initState]
  | @tail t u hr hstep ih =>
      cases hstep with
      | runnerBegin j hK hj => exact ih
      | runnerFinishOk j hK hj hb => exact ih
      | runnerFail j e hK hj hb => exact ih
      | runnerSend j e hK hj hq => exact ih
      | cancelParent hc => exact ih
      | monitorRecv rec rest hm hq => exact ih
      | monitorCtxDone hm hc => exact ih
      | monitorArm hm hw =>
          exact ⟨ih.1, by dsimp only; simp⟩
      | signalArrive hr' hw =>
          exact ⟨ih.1, by dsimp only; simp⟩
      | mainStartShutdown hm =>
          exact ⟨ih.1, by dsimp only; simp⟩
      | stopperFinish j o hK hm hns hb =>
          exfalso
          have hj0 : j = 0 := Nat.lt_one_iff.mp hK
          subst hj0
          simp [cfgHang] at hb
      | mainJoin hm hall =>
          exfalso
          have h0 := hall 0 (by decide)
          cases hcase : t.stoppers 0 with
          | notStarted => exact h0 hcase
          | finished o => exact ih.1 o hcase

/-- After the complete `cfgFail` lifecycle, the errors channel stays
empty forever: the only runner has already sent its record and the
monitor has exited. -/
theorem f8_frozen {t : State} (h : Reach cfgFail sF8 t) :
    t.queue = [] ∧ t.runners 0 = RunnerSt.doneSent := by
  induction h with
  | refl => exact ⟨rfl, rfl⟩
  | @tail t u hr hstep ih =>
      cases hstep with
      | runnerBegin j hK hj =>
          exfalso
          have hj0 : j = 0 := Nat.lt_one_iff.mp hK
          subst hj0
          rw [ih.2] at hj
          simp at hj
      | runnerFinishOk j hK hj hb =>
          exfalso
          have hj0 : j = 0 := Nat.lt_one_iff.mp hK
          subst hj0
          rw [ih.2] at hj
          simp at hj
      | runnerFail j e hK hj hb =>
          exfalso
          have hj0 : j = 0 := Nat.lt_one_iff.mp hK
          subst hj0
          rw [ih.2] at hj
          simp at hj
      | runnerSend j e hK hj hq =>
          exfalso
          have hj0 : j = 0 := Nat.lt_one_iff.mp hK
          subst hj0
          rw [ih.2] at hj
          simp at hj
      | cancelParent hc => exact ih
      | monitorRecv rec rest hm hq =>
          exfalso
          rw [ih.1] at hq
          simp at hq
      | monitorCtxDone hm hc => exact ih
      | monitorArm hm hw => exact ih
      | signalArrive hr' hw => exact ih
      | mainStartShutdown hm => exact ih
      | stopperFinish j o hK hm hns hb => exact ih
      | mainJoin hm hall => exact ih

/-- C1: for every configuration and every interleaving of concurrent
trigger events (run failures and/or an external signal), the shutdown
body of `ThenStop` executes at most once - exactly once from the moment
it has begun - nothing panics, the count stays at most one in every
future state, and a pending monitor trigger can always rendezvous with a
waiting `ThenStop` (no deadlock, no duplicate shutdown pass). -/
theorem c1_shutdown_exactly_once (cfg : Config) (s : State)
    (h : Reachable cfg s) :
    s.shutdownCount ≤ 1 ∧
    ((s.mainst = MainSt.stopping ∨ s.mainst = MainSt.done) →
      s.shutdownCount = 1) ∧
    s.panicked = false ∧
    (∀ t, Reach cfg s t → t.shutdownCount ≤ 1) ∧
    (s.monitor = MonitorSt.armPending → s.mainst = MainSt.waitingTrigger →
      ∃ t, Step cfg s t ∧ t.mainst = MainSt.triggered ∧
        t.shutdownCount = s.shutdownCount) := by
  have hInv := inv_reach h
  refine ⟨?_, ?_, hInv.no_panic, ?_, ?_⟩
  · rw [hInv.count_eq]; split <;> omega
  · intro hp; rw [hInv.count_eq, if_pos hp]
  · intro t ht
    have hInvt := inv_steps hInv ht
    rw [hInvt.count_eq]; split <;> omega
  · intro hm hw
    exact ⟨_, Step.monitorArm s hm hw, rfl, rfl⟩

theorem c1_shutdown_exactly_once_witness :
    sF4.shutdownCount ≤ 1 ∧
    ((sF4.mainst = MainSt.stopping ∨ sF4.mainst = MainSt.done) →
      sF4.shutdownCount = 1) ∧
    sF4.panicked = false ∧
    (∀ t, Reach cfgFail sF4 t → t.shutdownCount ≤ 1) ∧
    (sF4.monitor = MonitorSt.armPending → sF4.mainst = MainSt.waitingTrigger →
      ∃ t, Step cfgFail sF4 t ∧ t.mainst = MainSt.triggered ∧
        t.shutdownCount = sF4.shutdownCount) :=
  c1_shutdown_exactly_once cfgFail sF4 reachF4

/-- C2 counterexample: with a single process whose `stop` never returns,
the shutdown phase is entered (with the 5-second context installed), yet
no reachable state has the main goroutine past `wg.Wait()`: `ThenStop`
blocks forever instead of abandoning the hanging stop at the
deadline. -/
theorem c2_hanging_stop_blocks_forever :
    (Reachable cfgHang sH2 ∧ sH2.mainst = MainSt.stopping ∧
      sH2.stopCtx = some thenStopCtx) ∧
    (∀ s, Reachable cfgHang s → s.mainst ≠ MainSt.done) :=
  ⟨⟨reachH2, rfl, rfl⟩, fun _ h => (hang_blocks h).2⟩

/-- C2 (amended): `ThenStop` hands every stop goroutine the 5-second
deadline context and waits for all of them; when it completes, every
process's stop outcome has been collected, and if every process's `stop`
returns (in particular if it respects the deadline), a triggered system
can always run the stop fan-out to completion.  A `stop` that never
returns is not abandoned: it blocks `ThenStop` indefinitely (see the
counterexample). -/
theorem c2_thenStop_collects_all (cfg : Config) (s : State)
    (h : Reachable cfg s) :
    (s.mainst = MainSt.done → ∀ i, i < cfg.K →
      ∃ o, cfg.stopBeh i = StopBeh.ret o ∧
        s.stoppers i = StopperSt.finished o) ∧
    ((s.mainst = MainSt.stopping ∨ s.mainst = MainSt.done) →
      s.stopCtx = some thenStopCtx) ∧
    ((∀ i, i < cfg.K → cfg.stopBeh i ≠ StopBeh.hangs) →
      s.mainst = MainSt.triggered →
      ∃ t, Reach cfg s t ∧ t.mainst = MainSt.done ∧
        ∀ i, i < cfg.K → ∃ o, cfg.stopBeh i = StopBeh.ret o ∧
          t.stoppers i = StopperSt.finished o) := by
  have hInv := inv_reach h
  refine ⟨?_, ?_, ?_⟩
  · intro hd i hiK
    have hns := hInv.join_done hd i hiK
    cases hcase : s.stoppers i with
    | notStarted => exact absurd hcase hns
    | finished o =>
        obtain ⟨-, hbo, -⟩ := hInv.stopper_beh i o hcase
        exact ⟨o, hbo, rfl⟩
  · intro hp; rw [hInv.ctx_set, if_pos hp]
  · intro hnh htr
    have hstep := @Step.mainStartShutdown cfg s htr
    have hInv1 := inv_step hInv hstep
    have hb : ∀ i, i < cfg.K → ∃ o, cfg.stopBeh i = StopBeh.ret o := by
      intro i hiK
      cases hsb : cfg.stopBeh i with
      | hangs => exact absurd hsb (hnh i hiK)
      | ret o => exact ⟨o, rfl⟩
    obtain ⟨t, hr, hdone, hout⟩ := finish_all hInv1 rfl hb
    exact ⟨t, reach_trans (Reach.tail (Reach.refl s) hstep) hr, hdone, hout⟩

theorem c2_thenStop_collects_all_witness :
    (sC3.mainst = MainSt.done → ∀ i, i < cfgClean.K →
      ∃ o, cfgClean.stopBeh i = StopBeh.ret o ∧
        sC3.stoppers i = StopperSt.finished o) ∧
    ((sC3.mainst = MainSt.stopping ∨ sC3.mainst = MainSt.done) →
      sC3.stopCtx = some thenStopCtx) ∧
    ((∀ i, i < cfgClean.K → cfgClean.stopBeh i ≠ StopBeh.hangs) →
      sC3.mainst = MainSt.triggered →
      ∃ t, Reach cfgClean sC3 t ∧ t.mainst = MainSt.done ∧
        ∀ i, i < cfgClean.K → ∃ o, cfgClean.stopBeh i = StopBeh.ret o ∧
          t.stoppers i = StopperSt.finished o) :=
  c2_thenStop_collects_all cfgClean sC3 reachC3

/-- C3: the failure buffer is allocated with capacity equal to the
number of processes; its occupancy never exceeds that capacity, and a
runner holding a pending failure-record send is never blocked: the
buffer is strictly below capacity and the send step is enabled and
completes. -/
theorem c3_failure_buffer_nonblocking (cfg : Config) (s : State)
    (h : Reachable cfg s) :
    s.queue.length ≤ errorsCapacity cfg ∧
    (∀ i e, s.runners i = RunnerSt.sendPending e →
      s.queue.length < errorsCapacity cfg ∧
      ∃ t, Step cfg s t ∧ t.runners i = RunnerSt.doneSent ∧
        ProcessError.mk i e ∈ t.queue) := by
  have hInv := inv_reach h
  refine ⟨(queue_length_le_pub hInv).trans (pub_length_le hInv), ?_⟩
  intro i e hp
  have hiK : i < cfg.K := by
    by_contra hnot
    have hidle := hInv.runner_oob i (by omega)
    rw [hp] at hidle
    simp at hidle
  have hlt : s.queue.length < errorsCapacity cfg :=
    lt_of_le_of_lt (queue_length_le_pub hInv) (pub_length_lt hInv hp hiK)
  refine ⟨hlt, _, Step.runnerSend s i e hiK hp hlt, ?_, ?_⟩
  · exact Function.update_same ..
  · exact List.mem_append.mpr (Or.inr (by simp))

theorem c3_failure_buffer_nonblocking_witness :
    sF2.queue.length ≤ errorsCapacity cfgFail ∧
    (∀ i e, sF2.runners i = RunnerSt.sendPending e →
      sF2.queue.length < errorsCapacity cfgFail ∧
      ∃ t, Step cfgFail sF2 t ∧ t.runners i = RunnerSt.doneSent ∧
        ProcessError.mk i e ∈ t.queue) :=
  c3_failure_buffer_nonblocking cfgFail sF2 reachF2

/-- C4: a stop failure during shutdown is reported via the diagnostic
log only: the "failed to stop" event is logged, nothing panics, the
shutdown pass count is exactly one and stays so in every future state
(no abort, no re-trigger), the failed outcome is never retried, and
sibling stops remain enabled. -/
theorem c4_stop_failure_diagnostic_only (cfg : Config) (s : State)
    (h : Reachable cfg s) :
    ∀ i e, s.stoppers i = StopperSt.finished (some e) →
      Event.failedToStopLog i e ∈ s.log ∧
      cfg.stopBeh i = StopBeh.ret (some e) ∧
      s.panicked = false ∧
      s.shutdownCount = 1 ∧
      (∀ t, Reach cfg s t → t.shutdownCount = 1 ∧
        t.stoppers i = StopperSt.finished (some e) ∧ t.panicked = false) ∧
      (∀ j o, j < cfg.K → s.stoppers j = StopperSt.notStarted →
        s.mainst = MainSt.stopping → cfg.stopBeh j = StopBeh.ret o →
        ∃ t, Step cfg s t ∧ t.stoppers j = StopperSt.finished o) := by
  have hInv := inv_reach h
  intro i e hf
  obtain ⟨hiK, hbeh, hphase⟩ := hInv.stopper_beh i (some e) hf
  refine ⟨hInv.stopper_log_err i e hf, hbeh, hInv.no_panic, ?_, ?_, ?_⟩
  · rw [hInv.count_eq, if_pos hphase]
  · intro t ht
    have hInvt := inv_steps hInv ht
    refine ⟨?_, stopper_finished_reach ht hf, hInvt.no_panic⟩
    rw [hInvt.count_eq, if_pos (phase_reach ht hphase)]
  · intro j o hjK hns hm hbo
    exact ⟨_, Step.stopperFinish s j o hjK hm hns hbo,
      Function.update_same ..⟩

theorem c4_stop_failure_diagnostic_only_witness :
    Event.failedToStopLog 0 3 ∈ sE3.log ∧
    cfgStopErr.stopBeh 0 = StopBeh.ret (some 3) ∧
    sE3.panicked = false ∧
    sE3.shutdownCount = 1 ∧
    (∀ t, Reach cfgStopErr sE3 t → t.shutdownCount = 1 ∧
      t.stoppers 0 = StopperSt.finished (some 3) ∧ t.panicked = false) ∧
    (∀ j o, j < cfgStopErr.K → sE3.stoppers j = StopperSt.notStarted →
      sE3.mainst = MainSt.stopping → cfgStopErr.stopBeh j = StopBeh.ret o →
      ∃ t, Step cfgStopErr sE3 t ∧ t.stoppers j = StopperSt.finished o) :=
  c4_stop_failure_diagnostic_only cfgStopErr sE3 reachE3 0 3 rfl

/-- C5: a process whose `Run` returns a non-nil error has a failure
record pairing it with that error published into the buffer (the pending
send is always enabled and completes), and run failures never become
panics. -/
theorem c5_run_failure_published (cfg : Config) (s : State)
    (h : Reachable cfg s) :
    (∀ i e, s.runners i = RunnerSt.sendPending e →
      cfg.runBeh i = RunBeh.ret (some e) ∧
      ∃ t, Step cfg s t ∧ t.runners i = RunnerSt.doneSent ∧
        ProcessError.mk i e ∈ t.published) ∧
    (∀ i, s.runners i = RunnerSt.doneSent →
      ∃ e, cfg.runBeh i = RunBeh.ret (some e) ∧
        ProcessError.mk i e ∈ s.published) ∧
    s.panicked = false := by
  have hInv := inv_reach h
  refine ⟨?_, hInv.sent_pub, hInv.no_panic⟩
  intro i e hp
  have hiK : i < cfg.K := by
    by_contra hnot
    have hidle := hInv.runner_oob i (by omega)
    rw [hp] at hidle
    simp at hidle
  have hlt : s.queue.length < errorsCapacity cfg :=
    lt_of_le_of_lt (queue_length_le_pub hInv) (pub_length_lt hInv hp hiK)
  exact ⟨hInv.pend_beh i e hp,
    _, Step.runnerSend s i e hiK hp hlt, Function.update_same ..,
    List.mem_append.mpr (Or.inr (by simp))⟩

theorem c5_run_failure_published_witness :
    (∀ i e, sF2.runners i = RunnerSt.sendPending e →
      cfgFail.runBeh i = RunBeh.ret (some e) ∧
      ∃ t, Step cfgFail sF2 t ∧ t.runners i = RunnerSt.doneSent ∧
        ProcessError.mk i e ∈ t.published) ∧
    (∀ i, sF2.runners i = RunnerSt.doneSent →
      ∃ e, cfgFail.runBeh i = RunBeh.ret (some e) ∧
        ProcessError.mk i e ∈ sF2.published) ∧
    sF2.panicked = false :=
  c5_run_failure_published cfgFail sF2 reachF2

/-- C6 counterexample: the single process's `Run` returns nil; the
runner reaches its clean final state and the whole lifecycle completes,
yet no "completed" diagnostic event is ever emitted - neither in this
complete execution's log nor in any reachable state - so the code does
not emit the "completed" event the claim describes. -/
theorem c6_no_completed_event :
    Reachable cfgClean sC6 ∧
    cfgClean.runBeh 0 = RunBeh.ret none ∧
    sC6.runners 0 = RunnerSt.doneOk ∧
    sC6.mainst = MainSt.done ∧
    Event.completed 0 ∉ sC6.log ∧
    sC6.published = [] ∧
    (∀ s, Reachable cfgClean s → ∀ i, Event.completed i ∉ s.log) :=
  ⟨reachC6, rfl, rfl, rfl, by decide, rfl,
    fun _ h i => (inv_reach h).no_completed i⟩

/-- C6 (amended): a process whose `Run` returns nil (also after
observing cancellation) takes no further action and emits no completed
diagnostic: it never appears in the failure stream, and clean
completions alone never arm the trigger - with no failing process and no
cancellation the monitor stays in its select. -/
theorem c6_clean_completion_isolated (cfg : Config) (s : State)
    (h : Reachable cfg s) :
    (∀ i, cfg.runBeh i = RunBeh.ret none →
      ∀ rec, rec ∈ s.published → rec.process ≠ i) ∧
    (∀ i, Event.completed i ∉ s.log) ∧
    ((∀ j e, cfg.runBeh j ≠ RunBeh.ret (some e)) → s.ctxCancelled = false →
      s.monitor = MonitorSt.selecting) := by
  have hInv := inv_reach h
  refine ⟨?_, hInv.no_completed, ?_⟩
  · intro i hni rec hrec heq
    obtain ⟨-, h2, -⟩ := hInv.pub_runner rec hrec
    rw [heq, hni] at h2
    simp at h2
  · intro hall hcanc
    by_contra hmon
    rcases hInv.monitor_cause hmon with hpub | hc
    · obtain ⟨rec, hrec⟩ := List.exists_mem_of_ne_nil _ hpub
      obtain ⟨-, h2, -⟩ := hInv.pub_runner rec hrec
      exact hall rec.process rec.err h2
    · rw [hcanc] at hc
      simp at hc

theorem c6_clean_completion_isolated_witness :
    (∀ i, cfgClean.runBeh i = RunBeh.ret none →
      ∀ rec, rec ∈ sC6.published → rec.process ≠ i) ∧
    (∀ i, Event.completed i ∉ sC6.log) ∧
    ((∀ j e, cfgClean.runBeh j ≠ RunBeh.ret (some e)) →
      sC6.ctxCancelled = false → sC6.monitor = MonitorSt.selecting) :=
  c6_clean_completion_isolated cfgClean sC6 reachC6

/-- C7: the shutdown context is
`context.WithTimeout(context.Background(), 5*time.Second)`: it is
exactly the context installed when shutdown starts, it is done precisely
when its own 5-second deadline has elapsed, and its doneness is
independent of whether the run context was already cancelled - a
cancellation-triggered shutdown keeps its full grace period. -/
theorem c7_shutdown_ctx_fresh (cfg : Config) (s : State)
    (h : Reachable cfg s) :
    ((s.mainst = MainSt.stopping ∨ s.mainst = MainSt.done) →
      s.stopCtx = some thenStopCtx) ∧
    thenStopCtx = withTimeout contextBackground shutdownTimeout ∧
    (∀ runCancelled t,
      ctxDoneAt runCancelled t thenStopCtx = decide (shutdownTimeout ≤ t)) ∧
    (∀ rc rc' t,
      ctxDoneAt rc t thenStopCtx = ctxDoneAt rc' t thenStopCtx) := by
  have hInv := inv_reach h
  refine ⟨?_, rfl, ?_, ?_⟩
  · intro hp; rw [hInv.ctx_set, if_pos hp]
  · intro rc t
    simp [ctxDoneAt, thenStopCtx, withTimeout, contextBackground]
  · intro rc rc' t
    simp [ctxDoneAt, thenStopCtx, withTimeout, contextBackground]

theorem c7_shutdown_ctx_fresh_witness :
    ((sE2.mainst = MainSt.stopping ∨ sE2.mainst = MainSt.done) →
      sE2.stopCtx = some thenStopCtx) ∧
    thenStopCtx = withTimeout contextBackground shutdownTimeout ∧
    (∀ runCancelled t,
      ctxDoneAt runCancelled t thenStopCtx = decide (shutdownTimeout ≤ t)) ∧
    (∀ rc rc' t,
      ctxDoneAt rc t thenStopCtx = ctxDoneAt rc' t thenStopCtx) :=
  c7_shutdown_ctx_fresh cfgStopErr sE2 reachE2

/-- C8 counterexample: the single failure record is published, but the
monitor consumes it to detect the first failure: at the end of the
lifecycle the record sits in the monitor's consumed list, the `Errors`
channel is empty, and it stays empty in every future state - that
published record is never available for external consumption. -/
theorem c8_monitor_eats_first_record :
    Reachable cfgFail sF8 ∧
    sF8.mainst = MainSt.done ∧
    sF8.published = [ProcessError.mk 0 7] ∧
    sF8.consumed = [ProcessError.mk 0 7] ∧
    ErrorsChan sF8 = [] ∧
    (∀ t, Reach cfgFail sF8 t → ErrorsChan t = []) :=
  ⟨reachF8, rfl, rfl, rfl, rfl, fun _ ht => (f8_frozen ht).1⟩

/-- C8 (amended): `Errors` exposes the failure channel; the published
records are exactly the monitor's consumed records (at most one)
followed by those still available in the channel, the channel never
exceeds its capacity, and the Conductor never closes it nor requires it
to be drained. -/
theorem c8_errors_stream (cfg : Config) (s : State)
    (h : Reachable cfg s) :
    s.published = s.consumed ++ ErrorsChan s ∧
    s.consumed.length ≤ 1 ∧
    s.errorsClosed = false ∧
    (ErrorsChan s).length ≤ errorsCapacity cfg := by
  have hInv := inv_reach h
  exact ⟨hInv.pub_split, hInv.consumed_le, hInv.not_closed,
    (queue_length_le_pub hInv).trans (pub_length_le hInv)⟩

theorem c8_errors_stream_witness :
    sF8.published = sF8.consumed ++ ErrorsChan sF8 ∧
    sF8.consumed.length ≤ 1 ∧
    sF8.errorsClosed = false ∧
    (ErrorsChan sF8).length ≤ errorsCapacity cfgFail :=
  c8_errors_stream cfgFail sF8 reachF8

/-- C9 counterexample: at the end of the full lifecycle the Conductor
has deregistered its signal interest, but the failure buffer is not
released: `close(c.errors)` never runs - not in this final state nor in
any reachable state. -/
theorem c9_buffer_never_released :
    Reachable cfgFail sF8 ∧
    sF8.mainst = MainSt.done ∧
    sF8.signalRegistered = false ∧
    sF8.errorsClosed = false ∧
    (∀ s, Reachable cfgFail s → s.errorsClosed = false) :=
  ⟨reachF8, rfl, rfl, rfl, fun _ h => (inv_reach h).not_closed⟩

/-- C9 (amended): once `ThenStop` has collected all stop outcomes and
returned, the Conductor has deregistered its interest in external
termination signals (`signal.Stop`), and not before; the failure buffer,
however, is never closed or released. -/
theorem c9_signal_deregistered (cfg : Config) (s : State)
    (h : Reachable cfg s) :
    (s.mainst = MainSt.done →
      s.signalRegistered = false ∧
      ∀ i, i < cfg.K → s.stoppers i ≠ StopperSt.notStarted) ∧
    (s.mainst ≠ MainSt.done → s.signalRegistered = true) ∧
    s.errorsClosed = false := by
  have hInv := inv_reach h
  refine ⟨?_, ?_, hInv.not_closed⟩
  · intro hd
    exact ⟨by rw [hInv.signal_reg, if_pos hd], hInv.join_done hd⟩
  · intro hnd
    rw [hInv.signal_reg, if_neg hnd]

theorem c9_signal_deregistered_witness :
    (sF8.mainst = MainSt.done →
      sF8.signalRegistered = false ∧
      ∀ i, i < cfgFail.K → sF8.stoppers i ≠ StopperSt.notStarted) ∧
    (sF8.mainst ≠ MainSt.done → sF8.signalRegistered = true) ∧
    sF8.errorsClosed = false :=
  c9_signal_deregistered cfgFail sF8 reachF8

/-- C10: each runner goroutine sends at most one failure record over the
Conductor's whole lifetime: the published records carry pairwise
distinct, in-range process indices, their number never exceeds the
buffer capacity (= number of processes), and a runner that has sent
stays returned in every future state. -/
theorem c10_at_most_one_record_per_runner (cfg : Config) (s : State)
    (h : Reachable cfg s) :
    (s.published.map ProcessError.process).Nodup ∧
    (∀ rec, rec ∈ s.published → rec.process < cfg.K) ∧
    s.published.length ≤ errorsCapacity cfg ∧
    (∀ i, s.runners i = RunnerSt.doneSent →
      ∀ t, Reach cfg s t → t.runners i = RunnerSt.doneSent) := by
  have hInv := inv_reach h
  refine ⟨hInv.pub_nodup, ?_, pub_length_le hInv, ?_⟩
  · intro rec hrec
    exact (hInv.pub_runner rec hrec).1
  · intro i hds t ht
    exact runner_doneSent_reach ht hds

theorem c10_at_most_one_record_per_runner_witness :
    (sF3.published.map ProcessError.process).Nodup ∧
    (∀ rec, rec ∈ sF3.published → rec.process < cfgFail.K) ∧
    sF3.published.length ≤ errorsCapacity cfgFail ∧
    (∀ i, sF3.runners i = RunnerSt.doneSent →
      ∀ t, Reach cfgFail sF3 t → t.runners i = RunnerSt.doneSent) :=
  c10_at_most_one_record_per_runner cfgFail sF3 reachF3

end Parallel
